import Mathlib

/-!
# Verification of the Imagura image viewer core

A shallow embedding of the pure view-transform math, the thumbnail cache,
the switch-request queue, the load-task priority order and the
current-decode completion callback of the Imagura image viewer, together
with proofs and refutations of the specified properties.

Floating-point values of the source are modelled as rationals (`ℚ`), so
every arithmetic fact proved here is exact; integer pixel dimensions are
modelled as `ℤ`.
-/

namespace Imagura

/-! ## Configuration constants (imagura/config.py) -/

/-- `THUMB_CACHE_LIMIT = 400` (config.py). -/
def THUMB_CACHE_LIMIT : Nat := 400

/-- `THUMB_PRELOAD_SPAN = 40` (config.py). -/
def THUMB_PRELOAD_SPAN : Int := 40

/-- `THUMB_BUILD_BUDGET_PER_FRAME = 2` (config.py). -/
def THUMB_BUILD_BUDGET_PER_FRAME : Nat := 2

/-- `ANIM_SWITCH_KEYS_MS = 250` (config.py). -/
def ANIM_SWITCH_KEYS_MS : Int := 250

/-- `FIT_DEFAULT_SCALE = 0.95` (config.py). -/
def FIT_DEFAULT_SCALE : ℚ := 19/20

/-! ## Data types (imagura/types.py) -/

/-- `ViewParams` (types.py): uniform scale plus translation offsets. -/
@[ext]
structure ViewParams where
  scale : ℚ := 1
  offx : ℚ := 0
  offy : ℚ := 0
deriving DecidableEq, Repr

/-! ## math_utils.py -/

/-- `clamp(v, a, b)` (math_utils.py): `a if v < a else b if v > b else v`. -/
def clamp (v a b : ℚ) : ℚ :=
  if v < a then a else if v > b then b else v

/-! ## Pure view math (imagura/view_math.py) -/

/-- `compute_fit_scale` (view_math.py): scale fitting the image into a
fraction of the screen; `1.0` when either image dimension is zero. -/
def compute_fit_scale (img_w img_h screen_w screen_h : ℤ) (frac : ℚ) : ℚ :=
  if img_w = 0 ∨ img_h = 0 then 1
  else min ((screen_w : ℚ) * frac / (img_w : ℚ)) ((screen_h : ℚ) * frac / (img_h : ℚ))

/-- `center_view_for` (view_math.py): centered `ViewParams` at a given scale. -/
def center_view_for (scale : ℚ) (img_w img_h screen_w screen_h : ℤ) : ViewParams :=
  { scale := scale
    offx := ((screen_w : ℚ) - (img_w : ℚ) * scale) / 2
    offy := ((screen_h : ℚ) - (img_h : ℚ) * scale) / 2 }

/-- `compute_fit_view` (view_math.py): fit scale, then centered view. -/
def compute_fit_view (img_w img_h screen_w screen_h : ℤ) (frac : ℚ) : ViewParams :=
  center_view_for (compute_fit_scale img_w img_h screen_w screen_h frac)
    img_w img_h screen_w screen_h

/-- `clamp_pan` (view_math.py): clamp the image center to a maximal
deviation of `|screenDim - scaledImgDim| / 2` from the screen center on
each axis, then re-derive the offsets. -/
def clamp_pan (view : ViewParams) (img_w img_h screen_w screen_h : ℤ) : ViewParams :=
  let vw := (img_w : ℚ) * view.scale
  let vh := (img_h : ℚ) * view.scale
  let img_center_x := view.offx + vw / 2
  let img_center_y := view.offy + vh / 2
  let screen_center_x := (screen_w : ℚ) / 2
  let screen_center_y := (screen_h : ℚ) / 2
  let max_dev_x := |(screen_w : ℚ) - vw| / 2
  let max_dev_y := |(screen_h : ℚ) - vh| / 2
  let clamped_center_x := clamp img_center_x (screen_center_x - max_dev_x) (screen_center_x + max_dev_x)
  let clamped_center_y := clamp img_center_y (screen_center_y - max_dev_y) (screen_center_y + max_dev_y)
  { scale := view.scale
    offx := clamped_center_x - vw / 2
    offy := clamped_center_y - vh / 2 }

/-- `recompute_view_anchor_zoom` (view_math.py): rescale keeping the
anchor screen point over the same image point; the old scale is floored
at `1e-6` and the new scale at `0.01`. -/
def recompute_view_anchor_zoom (view : ViewParams) (new_scale : ℚ) (anchor : ℤ × ℤ)
    (img_w img_h : ℤ) : ViewParams :=
  let ax : ℚ := (anchor.1 : ℚ)
  let ay : ℚ := (anchor.2 : ℚ)
  let old_scale := if view.scale ≠ 0 ∧ view.scale > 1/1000000 then view.scale else 1/1000000
  let wx := (ax - view.offx) / old_scale
  let wy := (ay - view.offy) / old_scale
  let s := max (1/100) new_scale
  { scale := s, offx := ax - wx * s, offy := ay - wy * s }

/-- `view_for_1to1_centered` (view_math.py): centered view at scale 1. -/
def view_for_1to1_centered (img_w img_h screen_w screen_h : ℤ) : ViewParams :=
  center_view_for 1 img_w img_h screen_w screen_h

/-- `sanitize_view` (view_math.py): heuristic repair of persisted views.
Near-zero offsets recenter; asymmetric offsets recenter; near-1:1 scale
with offsets far from the 1:1-centered position recenters at 1:1;
otherwise falls through to `clamp_pan`. Logging is omitted. -/
def sanitize_view (view : ViewParams) (img_w img_h screen_w screen_h : ℤ) : ViewParams :=
  if |view.offx| < 5 ∧ |view.offy| < 5 then
    center_view_for view.scale img_w img_h screen_w screen_h
  else if (|view.offx| < 5 ∧ |view.offy| > 50) ∨ (|view.offy| < 5 ∧ |view.offx| > 50) then
    center_view_for view.scale img_w img_h screen_w screen_h
  else if |view.scale - 1| < 1/100 ∧
      (|view.offx - (view_for_1to1_centered img_w img_h screen_w screen_h).offx| > 50 ∨
       |view.offy - (view_for_1to1_centered img_w img_h screen_w screen_h).offy| > 50) then
    view_for_1to1_centered img_w img_h screen_w screen_h
  else
    clamp_pan view img_w img_h screen_w screen_h

/-! ## Helper lemmas about `clamp` and `clamp_pan` -/

lemma clamp_le_right {a b : ℚ} (hab : a ≤ b) (v : ℚ) : clamp v a b ≤ b := by
  unfold clamp
  split_ifs with h1 h2
  · exact hab
  · exact le_refl b
  · exact le_of_not_lt h2

lemma clamp_ge_left {a b : ℚ} (hab : a ≤ b) (v : ℚ) : a ≤ clamp v a b := by
  unfold clamp
  split_ifs with h1 h2
  · exact le_refl a
  · exact hab
  · exact le_of_not_lt h1

lemma clamp_of_mem {v a b : ℚ} (ha : a ≤ v) (hb : v ≤ b) : clamp v a b = v := by
  unfold clamp
  rw [if_neg (not_lt.mpr ha), if_neg (not_lt.mpr hb)]

lemma clamp_idem {a b : ℚ} (hab : a ≤ b) (v : ℚ) :
    clamp (clamp v a b) a b = clamp v a b :=
  clamp_of_mem (clamp_ge_left hab v) (clamp_le_right hab v)

lemma clamp_pan_scale (v : ViewParams) (iw ih sw sh : ℤ) :
    (clamp_pan v iw ih sw sh).scale = v.scale := rfl

lemma clamp_pan_offx (v : ViewParams) (iw ih sw sh : ℤ) :
    (clamp_pan v iw ih sw sh).offx =
      clamp (v.offx + (iw : ℚ) * v.scale / 2)
        ((sw : ℚ) / 2 - |(sw : ℚ) - (iw : ℚ) * v.scale| / 2)
        ((sw : ℚ) / 2 + |(sw : ℚ) - (iw : ℚ) * v.scale| / 2) - (iw : ℚ) * v.scale / 2 := rfl

lemma clamp_pan_offy (v : ViewParams) (iw ih sw sh : ℤ) :
    (clamp_pan v iw ih sw sh).offy =
      clamp (v.offy + (ih : ℚ) * v.scale / 2)
        ((sh : ℚ) / 2 - |(sh : ℚ) - (ih : ℚ) * v.scale| / 2)
        ((sh : ℚ) / 2 + |(sh : ℚ) - (ih : ℚ) * v.scale| / 2) - (ih : ℚ) * v.scale / 2 := rfl

/-- One axis of `clamp_pan` applied twice equals once. -/
lemma clamp_axis_idem (vw c d off : ℚ) (hd : 0 ≤ d) :
    clamp ((clamp (off + vw / 2) (c - d) (c + d) - vw / 2) + vw / 2) (c - d) (c + d) - vw / 2 =
      clamp (off + vw / 2) (c - d) (c + d) - vw / 2 := by
  have hab : c - d ≤ c + d := by linarith
  have h1 : (clamp (off + vw / 2) (c - d) (c + d) - vw / 2) + vw / 2 =
      clamp (off + vw / 2) (c - d) (c + d) := by ring
  rw [h1, clamp_idem hab]

/-! ## Claim theorems: view math -/

/-- C3. `clamp_pan` is idempotent: applying it twice gives the same
result as applying it once, for every view and every image/screen
dimensions. -/
theorem clamp_pan_idempotent (v : ViewParams) (iw ih sw sh : ℤ) :
    clamp_pan (clamp_pan v iw ih sw sh) iw ih sw sh = clamp_pan v iw ih sw sh := by
  have hdx : (0 : ℚ) ≤ |(sw : ℚ) - (iw : ℚ) * v.scale| / 2 := by positivity
  have hdy : (0 : ℚ) ≤ |(sh : ℚ) - (ih : ℚ) * v.scale| / 2 := by positivity
  ext
  · rw [clamp_pan_scale, clamp_pan_scale]
  · rw [clamp_pan_offx, clamp_pan_offx, clamp_pan_scale]
    exact clamp_axis_idem ((iw : ℚ) * v.scale) ((sw : ℚ) / 2)
      (|(sw : ℚ) - (iw : ℚ) * v.scale| / 2) v.offx hdx
  · rw [clamp_pan_offy, clamp_pan_offy, clamp_pan_scale]
    exact clamp_axis_idem ((ih : ℚ) * v.scale) ((sh : ℚ) / 2)
      (|(sh : ℚ) - (ih : ℚ) * v.scale| / 2) v.offy hdy

/-- C10. `clamp_pan` preserves the `scale` field; only the offsets may
change. -/
theorem clamp_pan_preserves_scale (v : ViewParams) (iw ih sw sh : ℤ) :
    (clamp_pan v iw ih sw sh).scale = v.scale := rfl

/-- C5. `compute_fit_scale` equals `min(screenW*frac/imgW, screenH*frac/imgH)`
when both image dimensions are non-zero and `1.0` when either is zero;
for image 1920x1080, screen 1920x1080, frac = 0.95 the fit scale is 0.95
and the centered fit view has offsets (48, 27). -/
theorem compute_fit_scale_spec :
    (∀ (iw ih sw sh : ℤ) (frac : ℚ),
      (iw ≠ 0 ∧ ih ≠ 0 →
        compute_fit_scale iw ih sw sh frac =
          min ((sw : ℚ) * frac / (iw : ℚ)) ((sh : ℚ) * frac / (ih : ℚ))) ∧
      (iw = 0 ∨ ih = 0 → compute_fit_scale iw ih sw sh frac = 1)) ∧
    compute_fit_scale 1920 1080 1920 1080 (19/20) = 19/20 ∧
    compute_fit_view 1920 1080 1920 1080 (19/20) = { scale := 19/20, offx := 48, offy := 27 } := by
  have hs : compute_fit_scale 1920 1080 1920 1080 (19/20) = 19/20 := by
    unfold compute_fit_scale
    rw [if_neg (by decide)]
    norm_num [min_def]
  refine ⟨fun iw ih sw sh frac => ⟨fun h => ?_, fun h => ?_⟩, hs, ?_⟩
  · unfold compute_fit_scale
    rw [if_neg]
    push_neg
    exact h
  · unfold compute_fit_scale
    rw [if_pos h]
  · unfold compute_fit_view
    rw [hs]
    unfold center_view_for
    simp only [ViewParams.mk.injEq]
    norm_num

/-- Witness for C5 at concrete inputs. -/
theorem compute_fit_scale_spec_witness :
    compute_fit_scale 2 3 4 5 1 = min ((4 : ℚ) * 1 / (2 : ℚ)) ((5 : ℚ) * 1 / (3 : ℚ)) ∧
    compute_fit_scale 0 3 4 5 1 = 1 :=
  ⟨(compute_fit_scale_spec.1 2 3 4 5 1).1 ⟨by decide, by decide⟩,
   (compute_fit_scale_spec.1 0 3 4 5 1).2 (Or.inl rfl)⟩

/-! ## Anchor zoom (C2) -/

lemma anchor_zoom_scale (v : ViewParams) (ns : ℚ) (ax ay iw ih : ℤ) :
    (recompute_view_anchor_zoom v ns (ax, ay) iw ih).scale = max (1/100) ns := rfl

lemma anchor_zoom_offx (v : ViewParams) (ns : ℚ) (ax ay iw ih : ℤ) :
    (recompute_view_anchor_zoom v ns (ax, ay) iw ih).offx =
      (ax : ℚ) - (((ax : ℚ) - v.offx) /
        (if v.scale ≠ 0 ∧ v.scale > 1/1000000 then v.scale else 1/1000000)) *
        max (1/100) ns := rfl

lemma anchor_zoom_offy (v : ViewParams) (ns : ℚ) (ax ay iw ih : ℤ) :
    (recompute_view_anchor_zoom v ns (ax, ay) iw ih).offy =
      (ay : ℚ) - (((ay : ℚ) - v.offy) /
        (if v.scale ≠ 0 ∧ v.scale > 1/1000000 then v.scale else 1/1000000)) *
        max (1/100) ns := rfl

lemma max_hundredth_ne_zero (ns : ℚ) : max (1/100) ns ≠ 0 :=
  ne_of_gt (lt_of_lt_of_le (by norm_num) (le_max_left (1/100) ns))

/-- C2 (amended). Anchor invariance of the anchor zoom for every view
whose scale exceeds the `1e-6` epsilon floor: the image-space coordinate
under the anchor screen point is exactly the same before and after
`recompute_view_anchor_zoom`, on both axes, for every target scale,
anchor point and image size. -/
theorem anchor_zoom_invariant_above_eps (v : ViewParams) (new_scale : ℚ)
    (ax ay iw ih : ℤ) (h : v.scale > 1/1000000) :
    ((ax : ℚ) - v.offx) / v.scale =
      ((ax : ℚ) - (recompute_view_anchor_zoom v new_scale (ax, ay) iw ih).offx) /
        (recompute_view_anchor_zoom v new_scale (ax, ay) iw ih).scale ∧
    ((ay : ℚ) - v.offy) / v.scale =
      ((ay : ℚ) - (recompute_view_anchor_zoom v new_scale (ax, ay) iw ih).offy) /
        (recompute_view_anchor_zoom v new_scale (ax, ay) iw ih).scale := by
  have hs0 : v.scale ≠ 0 := ne_of_gt (lt_trans (by norm_num) h)
  have hold : (if v.scale ≠ 0 ∧ v.scale > 1/1000000 then v.scale else 1/1000000) = v.scale :=
    if_pos ⟨hs0, h⟩
  have hm0 : max (1/100) new_scale ≠ 0 := max_hundredth_ne_zero new_scale
  constructor
  · rw [anchor_zoom_offx, anchor_zoom_scale, hold]
    rw [sub_sub_cancel, mul_div_assoc, div_self hm0, mul_one]
  · rw [anchor_zoom_offy, anchor_zoom_scale, hold]
    rw [sub_sub_cancel, mul_div_assoc, div_self hm0, mul_one]

/-- Witness for C2 (amended) at a concrete view, anchor and target scale. -/
theorem anchor_zoom_invariant_above_eps_witness :
    (((10 : ℤ) : ℚ) - (ViewParams.mk 1 3 4).offx) / (ViewParams.mk 1 3 4).scale =
      (((10 : ℤ) : ℚ) - (recompute_view_anchor_zoom (ViewParams.mk 1 3 4) 2 (10, 20) 100 50).offx) /
        (recompute_view_anchor_zoom (ViewParams.mk 1 3 4) 2 (10, 20) 100 50).scale ∧
    (((20 : ℤ) : ℚ) - (ViewParams.mk 1 3 4).offy) / (ViewParams.mk 1 3 4).scale =
      (((20 : ℤ) : ℚ) - (recompute_view_anchor_zoom (ViewParams.mk 1 3 4) 2 (10, 20) 100 50).offy) /
        (recompute_view_anchor_zoom (ViewParams.mk 1 3 4) 2 (10, 20) 100 50).scale :=
  anchor_zoom_invariant_above_eps (ViewParams.mk 1 3 4) 2 10 20 100 50 (by norm_num)

/-- C2 (counterexample). At `scale = 1e-7 ≤ 1e-6` the epsilon floor makes
the code use `1e-6` as the old scale, so the image-space coordinate under
the anchor after the zoom differs from the one before by a factor of 10:
the claim as stated over every view is false. -/
theorem anchor_zoom_tiny_scale_counterex :
    (((1 : ℤ) : ℚ) - (ViewParams.mk (1/10000000) 0 0).offx) / (ViewParams.mk (1/10000000) 0 0).scale ≠
      (((1 : ℤ) : ℚ) - (recompute_view_anchor_zoom (ViewParams.mk (1/10000000) 0 0) 1 (1, 1) 100 100).offx) /
        (recompute_view_anchor_zoom (ViewParams.mk (1/10000000) 0 0) 1 (1, 1) 100 100).scale := by
  rw [anchor_zoom_offx, anchor_zoom_scale]
  rw [if_neg (by norm_num)]
  rw [show max (1/100 : ℚ) 1 = 1 from by norm_num [max_def]]
  norm_num

/-! ## Sanitize view on a centered fit view (C6) -/

/-- A view centered at its own scale is a fixed point of `clamp_pan`. -/
lemma clamp_pan_center_view (s : ℚ) (iw ih sw sh : ℤ) :
    clamp_pan (center_view_for s iw ih sw sh) iw ih sw sh = center_view_for s iw ih sw sh := by
  have hdx : (0 : ℚ) ≤ |(sw : ℚ) - (iw : ℚ) * s| / 2 := by positivity
  have hdy : (0 : ℚ) ≤ |(sh : ℚ) - (ih : ℚ) * s| / 2 := by positivity
  have hcx : ((sw : ℚ) - (iw : ℚ) * s) / 2 + (iw : ℚ) * s / 2 = (sw : ℚ) / 2 := by ring
  have hcy : ((sh : ℚ) - (ih : ℚ) * s) / 2 + (ih : ℚ) * s / 2 = (sh : ℚ) / 2 := by ring
  have hsc : (center_view_for s iw ih sw sh).scale = s := rfl
  have hox : (center_view_for s iw ih sw sh).offx = ((sw : ℚ) - (iw : ℚ) * s) / 2 := rfl
  have hoy : (center_view_for s iw ih sw sh).offy = ((sh : ℚ) - (ih : ℚ) * s) / 2 := rfl
  ext
  · rfl
  · rw [clamp_pan_offx, hsc, hox, hcx, clamp_of_mem (by linarith) (by linarith)]
    ring
  · rw [clamp_pan_offy, hsc, hoy, hcy, clamp_of_mem (by linarith) (by linarith)]
    ring

/-- C6 (amended). `sanitize_view` is a no-op on the centered fit view
produced by `compute_fit_view`, except when the fit scale is within 0.01
of 1 and the fit offsets deviate by more than 50px from the 1:1-centered
offsets on some axis, in which case the 1:1 repair rule rewrites the
view. -/
theorem sanitize_view_fit_noop (iw ih sw sh : ℤ) (frac : ℚ)
    (h : ¬ (|(compute_fit_view iw ih sw sh frac).scale - 1| < 1/100 ∧
        (|(compute_fit_view iw ih sw sh frac).offx -
            (view_for_1to1_centered iw ih sw sh).offx| > 50 ∨
         |(compute_fit_view iw ih sw sh frac).offy -
            (view_for_1to1_centered iw ih sw sh).offy| > 50))) :
    sanitize_view (compute_fit_view iw ih sw sh frac) iw ih sw sh =
      compute_fit_view iw ih sw sh frac := by
  have hc : center_view_for (compute_fit_view iw ih sw sh frac).scale iw ih sw sh =
      compute_fit_view iw ih sw sh frac := rfl
  have hclamp : clamp_pan (compute_fit_view iw ih sw sh frac) iw ih sw sh =
      compute_fit_view iw ih sw sh frac :=
    clamp_pan_center_view (compute_fit_scale iw ih sw sh frac) iw ih sw sh
  unfold sanitize_view
  by_cases h1 : |(compute_fit_view iw ih sw sh frac).offx| < 5 ∧
      |(compute_fit_view iw ih sw sh frac).offy| < 5
  · rw [if_pos h1]
    exact hc
  · rw [if_neg h1]
    by_cases h2 : (|(compute_fit_view iw ih sw sh frac).offx| < 5 ∧
          |(compute_fit_view iw ih sw sh frac).offy| > 50) ∨
        (|(compute_fit_view iw ih sw sh frac).offy| < 5 ∧
          |(compute_fit_view iw ih sw sh frac).offx| > 50)
    · rw [if_pos h2]
      exact hc
    · rw [if_neg h2, if_neg h]
      exact hclamp

/-- Witness for C6 (amended): the 1920x1080 fit view at frac 0.95 passes
through `sanitize_view` unchanged. -/
theorem sanitize_view_fit_noop_witness :
    sanitize_view (compute_fit_view 1920 1080 1920 1080 (19/20)) 1920 1080 1920 1080 =
      compute_fit_view 1920 1080 1920 1080 (19/20) := by
  refine sanitize_view_fit_noop 1920 1080 1920 1080 (19/20) ?_
  have hs : compute_fit_scale 1920 1080 1920 1080 (19/20) = 19/20 := by
    unfold compute_fit_scale
    rw [if_neg (by decide)]
    norm_num [min_def]
  intro hcontra
  have h1 : |(compute_fit_view 1920 1080 1920 1080 (19/20)).scale - 1| < 1/100 := hcontra.1
  rw [show (compute_fit_view 1920 1080 1920 1080 (19/20)).scale =
      compute_fit_scale 1920 1080 1920 1080 (19/20) from rfl, hs, abs_lt] at h1
  have h2 := h1.1
  norm_num at h2

/-- C6 (counterexample). For a 20000x1000 image on a 19898x1005 screen at
frac 1 the fit scale is 0.9949: the fit view trips the 1:1 repair rule of
`sanitize_view`, which rewrites it to the 1:1-centered view, so the
claimed unconditional no-op is false. -/
theorem sanitize_view_fit_counterex :
    sanitize_view (compute_fit_view 20000 1000 19898 1005 1) 20000 1000 19898 1005 ≠
      compute_fit_view 20000 1000 19898 1005 1 := by
  have hs : compute_fit_scale 20000 1000 19898 1005 1 = 9949/10000 := by
    unfold compute_fit_scale
    rw [if_neg (by decide)]
    norm_num [min_def]
  have hv : compute_fit_view 20000 1000 19898 1005 1 =
      ViewParams.mk (9949/10000) 0 (101/20) := by
    unfold compute_fit_view
    rw [hs]
    unfold center_view_for
    simp only [ViewParams.mk.injEq]
    norm_num
  rw [hv]
  unfold sanitize_view
  rw [if_neg, if_neg, if_pos]
  · unfold view_for_1to1_centered center_view_for
    intro hcontra
    rw [ViewParams.mk.injEq] at hcontra
    have := hcontra.1
    norm_num at this
  · constructor
    · show |(9949/10000 : ℚ) - 1| < 1/100
      rw [abs_lt]
      constructor <;> norm_num
    · left
      show |(0 : ℚ) - (view_for_1to1_centered 20000 1000 19898 1005).offx| > 50
      unfold view_for_1to1_centered center_view_for
      show |(0 : ℚ) - ((19898 : ℚ) - (20000 : ℚ) * 1) / 2| > 50
      rw [show ((0 : ℚ) - ((19898 : ℚ) - (20000 : ℚ) * 1) / 2) = 51 from by norm_num,
        abs_of_nonneg (by norm_num)]
      norm_num
  · show ¬ ((|(0 : ℚ)| < 5 ∧ |(101/20 : ℚ)| > 50) ∨ (|(101/20 : ℚ)| < 5 ∧ |(0 : ℚ)| > 50))
    rw [abs_of_nonneg (le_refl (0 : ℚ)), abs_of_nonneg (by norm_num : (0:ℚ) ≤ 101/20)]
    push_neg
    constructor
    · intro h5
      norm_num
    · intro h5
      norm_num at h5
  · show ¬ (|(0 : ℚ)| < 5 ∧ |(101/20 : ℚ)| < 5)
    rw [abs_of_nonneg (le_refl (0 : ℚ)), abs_of_nonneg (by norm_num : (0:ℚ) ≤ 101/20)]
    push_neg
    intro h5
    norm_num

/-! ## Switch-request queue (imagura2.py `switch_to`,
state/animation.py `AnimationState.queue_switch`) -/

/-- The queueing branch of `switch_to` (imagura2.py): while a switch
animation is active, a request `(direction, anim_duration_ms)` is
appended only when the queue holds fewer than 20 entries; otherwise the
new request is silently discarded. -/
def switch_to_enqueue (queue : List (ℤ × ℤ)) (direction anim_duration_ms : ℤ) : List (ℤ × ℤ) :=
  if queue.length < 20 then queue ++ [(direction, anim_duration_ms)] else queue

/-- `AnimationState.queue_switch` (state/animation.py): append when under
the bound and report `true`, else report `false`. -/
def queue_switch (queue : List (ℤ × ℤ)) (direction duration_ms : ℤ) : List (ℤ × ℤ) × Bool :=
  if queue.length < 20 then (queue ++ [(direction, duration_ms)], true) else (queue, false)

lemma queue_switch_fst_eq_switch_to_enqueue (queue : List (ℤ × ℤ)) (d m : ℤ) :
    (queue_switch queue d m).1 = switch_to_enqueue queue d m := by
  unfold queue_switch switch_to_enqueue
  split_ifs <;> rfl

/-- Folding a request sequence into a queue already holding at most 20
entries keeps the first 20 of queue-then-requests. -/
lemma switch_fold_take (reqs : List (ℤ × ℤ)) :
    ∀ (q : List (ℤ × ℤ)), q.length ≤ 20 →
      reqs.foldl (fun acc r => switch_to_enqueue acc r.1 r.2) q = (q ++ reqs).take 20 := by
  induction reqs with
  | nil =>
      intro q hq
      simp [List.take_of_length_le hq]
  | cons r rs ih =>
      intro q hq
      rw [List.foldl_cons]
      by_cases hlt : q.length < 20
      · have hstep : switch_to_enqueue q r.1 r.2 = q ++ [r] := by
          unfold switch_to_enqueue
          rw [if_pos hlt]
        rw [hstep, ih (q ++ [r]) (by simp; omega)]
        simp
      · have h20 : q.length = 20 := le_antisymm hq (not_lt.mp hlt)
        have hstep : switch_to_enqueue q r.1 r.2 = q := by
          unfold switch_to_enqueue
          rw [if_neg hlt]
        rw [hstep, ih q hq, List.take_append_eq_append_take, List.take_append_eq_append_take,
          List.take_of_length_le hq, h20]
        simp

/-- C1 (amended). For any 25 switch requests submitted while a switch
animation is active, exactly 20 are retained, and they are the 20 oldest:
the 5 newest requests beyond the bound are the ones silently discarded
(the queue rejects new entries once it holds 20). -/
theorem switch_queue_drops_newest (reqs : List (ℤ × ℤ)) (h : reqs.length = 25) :
    (reqs.foldl (fun acc r => switch_to_enqueue acc r.1 r.2) []).length = 20 ∧
    reqs.foldl (fun acc r => switch_to_enqueue acc r.1 r.2) [] = reqs.take 20 := by
  have hfold := switch_fold_take reqs [] (by simp)
  rw [List.nil_append] at hfold
  refine ⟨?_, hfold⟩
  rw [hfold, List.length_take, h]
  omega

/-- Witness for C1 (amended) on a concrete sequence of 25 requests. -/
theorem switch_queue_drops_newest_witness :
    (((List.range 25).map (fun i => ((1 : ℤ), (i : ℤ)))).foldl
        (fun acc r => switch_to_enqueue acc r.1 r.2) []).length = 20 ∧
    ((List.range 25).map (fun i => ((1 : ℤ), (i : ℤ)))).foldl
        (fun acc r => switch_to_enqueue acc r.1 r.2) [] =
      ((List.range 25).map (fun i => ((1 : ℤ), (i : ℤ)))).take 20 :=
  switch_queue_drops_newest ((List.range 25).map (fun i => ((1 : ℤ), (i : ℤ)))) (by decide)

/-- C1 (counterexample). For 25 distinct requests the retained 20 are not
the last 20 (the suffix after dropping the 5 oldest): the code keeps the
first 20 and discards the newest 5, refuting the claim that the oldest
beyond the bound are dropped. -/
theorem switch_queue_oldest_drop_refuted :
    (((List.range 25).map (fun i => ((1 : ℤ), (i : ℤ)))).foldl
        (fun acc r => switch_to_enqueue acc r.1 r.2) []).length = 20 ∧
    ((List.range 25).map (fun i => ((1 : ℤ), (i : ℤ)))).foldl
        (fun acc r => switch_to_enqueue acc r.1 r.2) [] ≠
      ((List.range 25).map (fun i => ((1 : ℤ), (i : ℤ)))).drop 5 := by
  constructor
  · decide
  · decide

/-! ## Thumbnail cache (imagura2.py `schedule_thumbs`,
`process_thumb_queue`, `unload_texture_deferred`)

The `OrderedDict` thumbnail cache is modelled as an association list in
insertion order (head = oldest); GPU textures are modelled by their
integer ids. `destroyed` records ids passed synchronously to
`rl.UnloadTexture`; `to_unload` is `state.to_unload`, the deferred GPU
unload queue. -/

/-- `BitmapThumb` (types.py). -/
structure BitmapThumb where
  texture : Option Nat := none
  size : ℤ × ℤ := (0, 0)
  src_path : String := ""
  ready : Bool := false
deriving DecidableEq, Repr

/-- The slice of `AppState` touched by the thumbnail path. -/
structure ThumbState where
  images : List String
  thumb_cache : List (String × BitmapThumb)
  thumb_queue : List String
  to_unload : List Nat
  destroyed : List Nat
deriving DecidableEq, Repr

/-- `unload_texture_deferred` (imagura2.py): append the texture id to
`state.to_unload` when the texture exists and its id is positive. -/
def unload_texture_deferred (s : ThumbState) (tex : Option Nat) : ThumbState :=
  match tex with
  | none => s
  | some tex_id => if 0 < tex_id then { s with to_unload := s.to_unload ++ [tex_id] } else s

/-- The `for i in range(lo, hi+1)` body of `schedule_thumbs`: append each
path neither cached nor already queued (the `inq` set of the source
always mirrors the queue being built, so it is the evolving queue here). -/
def schedule_loop (images : List String) (cache : List (String × BitmapThumb)) :
    List String → List Nat → List String
  | queue, [] => queue
  | queue, i :: is =>
      let p := images.getD i ""
      if cache.any (fun e => e.1 = p) ∨ queue.contains p then
        schedule_loop images cache queue is
      else
        schedule_loop images cache (queue ++ [p]) is

/-- `schedule_thumbs` (imagura2.py): enqueue the paths in the symmetric
window of `THUMB_PRELOAD_SPAN` around `around_index`, skipping paths
already cached or queued. -/
def schedule_thumbs (s : ThumbState) (around_index : ℤ) : ThumbState :=
  let n : ℤ := (s.images.length : ℤ)
  if n = 0 then s
  else
    let lo := max 0 (around_index - THUMB_PRELOAD_SPAN)
    let hi := min (n - 1) (around_index + THUMB_PRELOAD_SPAN)
    let idxs := List.range' lo.toNat (hi + 1 - lo).toNat
    { s with thumb_queue := schedule_loop s.images s.thumb_cache s.thumb_queue idxs }

/-- The budgeted dequeue loop of `process_thumb_queue`: pop paths, skip
those already cached without consuming budget, otherwise insert a
not-ready placeholder at the end of the cache (the async GALLERY submit
has no effect on this state slice) and consume one budget unit. -/
def thumb_insert_loop : Nat → List (String × BitmapThumb) → List String →
    List (String × BitmapThumb) × List String
  | _, cache, [] => (cache, [])
  | 0, cache, q => (cache, q)
  | budget + 1, cache, p :: q =>
      if cache.any (fun e => e.1 = p) then
        thumb_insert_loop (budget + 1) cache q
      else
        thumb_insert_loop budget (cache ++ [(p, { texture := none, size := (0, 0), src_path := p, ready := false })]) q

/-- The eviction loop of `process_thumb_queue`: while the cache holds
more than `THUMB_CACHE_LIMIT` entries, pop the oldest
(`popitem(last=False)`) and synchronously `rl.UnloadTexture` its texture
when present. -/
def thumb_evict_loop : List (String × BitmapThumb) → List Nat →
    List (String × BitmapThumb) × List Nat
  | [], destroyed => ([], destroyed)
  | e :: rest, destroyed =>
      if THUMB_CACHE_LIMIT < rest.length + 1 then
        thumb_evict_loop rest (destroyed ++ e.2.texture.toList)
      else (e :: rest, destroyed)

/-- `process_thumb_queue` (imagura2.py): budgeted insert loop followed by
the eviction loop. `state.to_unload` is never touched. -/
def process_thumb_queue (s : ThumbState) : ThumbState :=
  let r := thumb_insert_loop THUMB_BUILD_BUDGET_PER_FRAME s.thumb_cache s.thumb_queue
  let e := thumb_evict_loop r.1 s.destroyed
  { s with thumb_cache := e.1, thumb_queue := r.2, destroyed := e.2 }

/-- The operations the thumbnail-cache invariant quantifies over. -/
inductive ThumbOp where
  | schedule (around_index : ℤ)
  | process
deriving DecidableEq, Repr

def thumb_apply (s : ThumbState) : ThumbOp → ThumbState
  | ThumbOp.schedule i => schedule_thumbs s i
  | ThumbOp.process => process_thumb_queue s

lemma thumb_evict_loop_length_le :
    ∀ (c : List (String × BitmapThumb)) (d : List Nat),
      (thumb_evict_loop c d).1.length ≤ THUMB_CACHE_LIMIT := by
  intro c
  induction c with
  | nil =>
      intro d
      simp [thumb_evict_loop, THUMB_CACHE_LIMIT]
  | cons e rest ih =>
      intro d
      unfold thumb_evict_loop
      by_cases hlen : THUMB_CACHE_LIMIT < rest.length + 1
      · rw [if_pos hlen]
        exact ih (d ++ e.2.texture.toList)
      · rw [if_neg hlen]
        simpa using not_lt.mp hlen

lemma thumb_evict_loop_of_le (c : List (String × BitmapThumb)) (d : List Nat)
    (h : c.length ≤ THUMB_CACHE_LIMIT) : thumb_evict_loop c d = (c, d) := by
  cases c with
  | nil => rfl
  | cons e rest =>
      unfold thumb_evict_loop
      rw [if_neg (by simp at h; omega)]

lemma process_thumb_queue_cache_le (s : ThumbState) :
    (process_thumb_queue s).thumb_cache.length ≤ THUMB_CACHE_LIMIT :=
  thumb_evict_loop_length_le _ _

lemma schedule_thumbs_cache_eq (s : ThumbState) (i : ℤ) :
    (schedule_thumbs s i).thumb_cache = s.thumb_cache := by
  unfold schedule_thumbs
  by_cases h : ((s.images.length : ℤ)) = 0
  · rw [if_pos h]
  · rw [if_neg h]

lemma thumb_apply_cache_le (s : ThumbState) (op : ThumbOp)
    (h : s.thumb_cache.length ≤ THUMB_CACHE_LIMIT) :
    (thumb_apply s op).thumb_cache.length ≤ THUMB_CACHE_LIMIT := by
  cases op with
  | schedule i =>
      rw [thumb_apply, schedule_thumbs_cache_eq]
      exact h
  | process => exact process_thumb_queue_cache_le s

lemma thumb_foldl_cache_le (ops : List ThumbOp) :
    ∀ (s : ThumbState), s.thumb_cache.length ≤ THUMB_CACHE_LIMIT →
      (ops.foldl thumb_apply s).thumb_cache.length ≤ THUMB_CACHE_LIMIT := by
  induction ops with
  | nil =>
      intro s h
      exact h
  | cons op rest ih =>
      intro s h
      rw [List.foldl_cons]
      exact ih (thumb_apply s op) (thumb_apply_cache_le s op h)

/-- C4. Starting from the empty thumbnail cache, after any finite
sequence of `schedule_thumbs` and `process_thumb_queue` calls the cache
holds at most `THUMB_CACHE_LIMIT` entries; moreover the eviction loop of
`process_thumb_queue` re-establishes the bound on every call, from any
state whatsoever. -/
theorem thumb_cache_bounded :
    (∀ (s : ThumbState), (process_thumb_queue s).thumb_cache.length ≤ THUMB_CACHE_LIMIT) ∧
    ∀ (imgs : List String) (ops : List ThumbOp),
      ((ops.foldl thumb_apply (ThumbState.mk imgs [] [] [] [])).thumb_cache.length ≤
        THUMB_CACHE_LIMIT) :=
  ⟨process_thumb_queue_cache_le,
   fun imgs ops => thumb_foldl_cache_le ops (ThumbState.mk imgs [] [] [] [])
     (by simp [THUMB_CACHE_LIMIT])⟩

/-! ## Eviction destroys synchronously, not deferred (C9) -/

/-- C9 (amended). When the thumbnail cache is over `THUMB_CACHE_LIMIT`
with an empty thumb queue, `process_thumb_queue` evicts the
oldest-inserted entry, its texture is destroyed synchronously via
`rl.UnloadTexture`, and the deferred GPU unload queue `state.to_unload`
is left untouched (the eviction path never calls
`unload_texture_deferred`). -/
theorem thumb_evict_synchronous (s : ThumbState) (p : String) (bt : BitmapThumb)
    (t : Nat) (rest : List (String × BitmapThumb))
    (hq : s.thumb_queue = [])
    (hc : s.thumb_cache = (p, bt) :: rest)
    (hlen : rest.length = THUMB_CACHE_LIMIT)
    (htex : bt.texture = some t) :
    (process_thumb_queue s).thumb_cache = rest ∧
    (process_thumb_queue s).destroyed = s.destroyed ++ [t] ∧
    (process_thumb_queue s).to_unload = s.to_unload := by
  have hins : thumb_insert_loop THUMB_BUILD_BUDGET_PER_FRAME s.thumb_cache s.thumb_queue =
      (s.thumb_cache, []) := by
    rw [hq]
    rfl
  have hev : thumb_evict_loop s.thumb_cache s.destroyed = (rest, s.destroyed ++ [t]) := by
    rw [hc]
    unfold thumb_evict_loop
    rw [if_pos (by omega), htex]
    rw [thumb_evict_loop_of_le rest _ (le_of_eq hlen)]
    rfl
  refine ⟨?_, ?_, ?_⟩ <;> simp [process_thumb_queue, hins, hev]

/-- A concrete over-limit state: 401 cache entries, oldest first, the
oldest holding texture id 7. -/
def thumb_ex_state : ThumbState :=
  ThumbState.mk []
    (("old", BitmapThumb.mk (some 7) (4, 3) "old" true) ::
      List.replicate THUMB_CACHE_LIMIT ("p", BitmapThumb.mk none (0, 0) "p" false))
    [] [] []

/-- Witness for C9 (amended) at the concrete over-limit state. -/
theorem thumb_evict_synchronous_witness :
    (process_thumb_queue thumb_ex_state).thumb_cache =
      List.replicate THUMB_CACHE_LIMIT ("p", BitmapThumb.mk none (0, 0) "p" false) ∧
    (process_thumb_queue thumb_ex_state).destroyed = thumb_ex_state.destroyed ++ [7] ∧
    (process_thumb_queue thumb_ex_state).to_unload = thumb_ex_state.to_unload :=
  thumb_evict_synchronous thumb_ex_state "old" (BitmapThumb.mk (some 7) (4, 3) "old" true) 7
    (List.replicate THUMB_CACHE_LIMIT ("p", BitmapThumb.mk none (0, 0) "p" false))
    rfl rfl (by simp) rfl

/-- C9 (counterexample). At the concrete over-limit state the evicted
texture id 7 is not appended to the deferred unload queue (`to_unload`
stays empty); it is destroyed synchronously during eviction, refuting the
claim that eviction routes the texture through the deferred queue. -/
theorem thumb_evict_not_deferred :
    (process_thumb_queue thumb_ex_state).to_unload = [] ∧
    (process_thumb_queue thumb_ex_state).destroyed = [7] := by
  have hins : thumb_insert_loop THUMB_BUILD_BUDGET_PER_FRAME thumb_ex_state.thumb_cache
      thumb_ex_state.thumb_queue = (thumb_ex_state.thumb_cache, []) := rfl
  have hev : thumb_evict_loop thumb_ex_state.thumb_cache thumb_ex_state.destroyed =
      (List.replicate THUMB_CACHE_LIMIT ("p", BitmapThumb.mk none (0, 0) "p" false), [7]) := by
    show thumb_evict_loop
        (("old", BitmapThumb.mk (some 7) (4, 3) "old" true) ::
          List.replicate THUMB_CACHE_LIMIT ("p", BitmapThumb.mk none (0, 0) "p" false)) [] = _
    unfold thumb_evict_loop
    rw [if_pos (by simp)]
    rw [thumb_evict_loop_of_le _ _ (by simp)]
    rfl
  constructor
  · simp only [process_thumb_queue, hins, hev]
    rfl
  · simp only [process_thumb_queue, hins, hev]

/-! ## Load-task priority order (imagura/types.py `LoadTask.__lt__`,
imagura2.py `AsyncImageLoader._worker_loop`) -/

/-- `LoadPriority` (types.py): `CURRENT = 0 < NEIGHBOR = 1 < GALLERY = 2`. -/
inductive LoadPriority where
  | CURRENT
  | NEIGHBOR
  | GALLERY
deriving DecidableEq, Repr

/-- The `IntEnum` value of a priority. -/
def LoadPriority.val : LoadPriority → Nat
  | LoadPriority.CURRENT => 0
  | LoadPriority.NEIGHBOR => 1
  | LoadPriority.GALLERY => 2

/-- `LoadTask` (types.py); the callback is opaque and modelled by an
identifier. -/
structure LoadTask where
  path : String
  priority : LoadPriority
  callback : Nat
  timestamp : ℚ
deriving DecidableEq, Repr

/-- `LoadTask.__lt__` (types.py): priority first, then timestamp. -/
def LoadTask.lt (t other : LoadTask) : Bool :=
  if t.priority.val ≠ other.priority.val then decide (t.priority.val < other.priority.val)
  else decide (t.timestamp < other.timestamp)

/-- `_worker_loop` (imagura2.py) pops from a `PriorityQueue`, which
removes a minimal pending task under `LoadTask.__lt__`; modelled as a
fold picking the least element of the pending list. -/
def pick_next : List LoadTask → Option LoadTask
  | [] => none
  | t :: ts => some (ts.foldl (fun acc u => if LoadTask.lt u acc then u else acc) t)

/-- The non-strict key order `(priority, timestamp)` used to reason about
`LoadTask.lt`. -/
def LoadTask.keyLe (t u : LoadTask) : Prop :=
  t.priority.val < u.priority.val ∨
    (t.priority.val = u.priority.val ∧ t.timestamp ≤ u.timestamp)

lemma LoadTask.keyLe_refl (t : LoadTask) : LoadTask.keyLe t t :=
  Or.inr ⟨rfl, le_refl _⟩

lemma LoadTask.keyLe_trans {a b c : LoadTask} (hab : LoadTask.keyLe a b)
    (hbc : LoadTask.keyLe b c) : LoadTask.keyLe a c := by
  rcases hab with h1 | ⟨h1, h2⟩ <;> rcases hbc with h3 | ⟨h3, h4⟩
  · exact Or.inl (lt_trans h1 h3)
  · exact Or.inl (h3 ▸ h1)
  · exact Or.inl (h1 ▸ h3)
  · exact Or.inr ⟨h1.trans h3, h2.trans h4⟩

lemma LoadTask.lt_iff (t u : LoadTask) :
    LoadTask.lt t u = true ↔
      (t.priority.val < u.priority.val ∨
        (t.priority.val = u.priority.val ∧ t.timestamp < u.timestamp)) := by
  unfold LoadTask.lt
  by_cases h : t.priority.val ≠ u.priority.val
  · rw [if_pos h]
    simp only [decide_eq_true_eq]
    constructor
    · exact Or.inl
    · rintro (h1 | ⟨h1, _⟩)
      · exact h1
      · exact absurd h1 h
  · rw [if_neg h]
    push_neg at h
    simp only [decide_eq_true_eq]
    constructor
    · intro h1
      exact Or.inr ⟨h, h1⟩
    · rintro (h1 | ⟨_, h2⟩)
      · exact absurd h (ne_of_lt h1)
      · exact h2

lemma LoadTask.not_lt_keyLe {t u : LoadTask} (h : LoadTask.lt u t = false) :
    LoadTask.keyLe t u := by
  have h2 := (Bool.not_eq_true _).mpr h
  rw [LoadTask.lt_iff] at h2
  push_neg at h2
  rcases lt_trichotomy t.priority.val u.priority.val with h3 | h3 | h3
  · exact Or.inl h3
  · exact Or.inr ⟨h3, h2.2 h3.symm⟩
  · exact absurd h2.1 (not_le.mpr h3)

lemma LoadTask.lt_keyLe {t u : LoadTask} (h : LoadTask.lt t u = true) :
    LoadTask.keyLe t u := by
  rw [LoadTask.lt_iff] at h
  rcases h with h1 | ⟨h1, h2⟩
  · exact Or.inl h1
  · exact Or.inr ⟨h1, le_of_lt h2⟩

lemma LoadTask.lt_asymm {t u : LoadTask} (h : LoadTask.lt t u = true) :
    LoadTask.lt u t = false := by
  rw [Bool.eq_false_iff]
  intro h2
  rw [LoadTask.lt_iff] at h h2
  rcases h with h1 | ⟨h1, h3⟩ <;> rcases h2 with h2 | ⟨h2, h4⟩
  · omega
  · omega
  · omega
  · exact absurd h4 (not_lt.mpr (le_of_lt h3))

/-- The fold in `pick_next` returns a task `keyLe` every pending one. -/
lemma pick_fold_keyLe (ts : List LoadTask) :
    ∀ (a : LoadTask),
      LoadTask.keyLe (ts.foldl (fun acc u => if LoadTask.lt u acc then u else acc) a) a ∧
      ∀ u ∈ ts,
        LoadTask.keyLe (ts.foldl (fun acc u => if LoadTask.lt u acc then u else acc) a) u := by
  induction ts with
  | nil =>
      intro a
      exact ⟨LoadTask.keyLe_refl a, by simp⟩
  | cons u us ih =>
      intro a
      rw [List.foldl_cons]
      have hstep : LoadTask.keyLe (if LoadTask.lt u a then u else a) a ∧
          LoadTask.keyLe (if LoadTask.lt u a then u else a) u := by
        by_cases h : LoadTask.lt u a = true
        · rw [if_pos h]
          exact ⟨LoadTask.lt_keyLe h, LoadTask.keyLe_refl u⟩
        · rw [if_neg h]
          exact ⟨LoadTask.keyLe_refl a, LoadTask.not_lt_keyLe (Bool.not_eq_true _ ▸ h)⟩
      obtain ⟨iha, ihall⟩ := ih (if LoadTask.lt u a then u else a)
      refine ⟨LoadTask.keyLe_trans iha hstep.1, ?_⟩
      intro x hx
      rcases List.mem_cons.mp hx with hx1 | hx2
      · rw [hx1]
        exact LoadTask.keyLe_trans iha hstep.2
      · exact ihall x hx2

/-- C8. `LoadTask.__lt__` is the total order priority-then-timestamp with
`CURRENT < NEIGHBOR < GALLERY`; a worker popping from the priority queue
never picks a pending task over which another pending task has strictly
smaller priority, or equal priority and strictly earlier submit
timestamp; on a two-task queue in either arrival order the smaller task
is picked first. -/
theorem load_task_priority_order :
    LoadPriority.CURRENT.val < LoadPriority.NEIGHBOR.val ∧
    LoadPriority.NEIGHBOR.val < LoadPriority.GALLERY.val ∧
    ∀ (l : List LoadTask) (t1 t2 m : LoadTask),
      t1 ∈ l → t2 ∈ l →
      (t1.priority.val < t2.priority.val ∨
        (t1.priority.val = t2.priority.val ∧ t1.timestamp < t2.timestamp)) →
      pick_next l = some m →
      m ≠ t2 ∧ pick_next [t1, t2] = some t1 ∧ pick_next [t2, t1] = some t1 := by
  refine ⟨by decide, by decide, ?_⟩
  intro l t1 t2 m h1 h2 hlt hm
  have hltb : LoadTask.lt t1 t2 = true := (LoadTask.lt_iff t1 t2).mpr hlt
  have hnotk : ¬ LoadTask.keyLe t2 t1 := by
    rintro (hk | ⟨hk, hk2⟩)
    · rcases hlt with ha | ⟨ha, _⟩
      · omega
      · omega
    · rcases hlt with ha | ⟨ha, hb⟩
      · omega
      · exact absurd hk2 (not_le.mpr hb)
  constructor
  · cases l with
    | nil => cases h1
    | cons hd tl =>
        have hmfold : m = tl.foldl (fun acc u => if LoadTask.lt u acc then u else acc) hd :=
          (Option.some_inj.mp hm).symm
        obtain ⟨hka, hkall⟩ := pick_fold_keyLe tl hd
        have hkm : LoadTask.keyLe m t1 := by
          rcases List.mem_cons.mp h1 with hh | hh

          · exact hmfold ▸ hh ▸ hka
          · exact hmfold ▸ hkall t1 hh
        intro hcontra
        exact hnotk (LoadTask.keyLe_trans (hcontra ▸ hkm) (LoadTask.keyLe_refl t1))
  · constructor
    · show some ([t2].foldl (fun acc u => if LoadTask.lt u acc then u else acc) t1) = some t1
      rw [List.foldl_cons, List.foldl_nil, if_neg]
      rw [LoadTask.lt_asymm hltb]
      exact Bool.false_ne_true
    · show some ([t1].foldl (fun acc u => if LoadTask.lt u acc then u else acc) t2) = some t1
      rw [List.foldl_cons, List.foldl_nil, if_pos hltb]

/-- Witness for C8: a concrete pending list holding a GALLERY task ahead
of a CURRENT task. -/
theorem load_task_priority_order_witness :
    LoadTask.mk "c" LoadPriority.CURRENT 1 (5 : ℚ) ≠
        LoadTask.mk "g" LoadPriority.GALLERY 2 (3 : ℚ) ∧
    pick_next [LoadTask.mk "c" LoadPriority.CURRENT 1 (5 : ℚ),
        LoadTask.mk "g" LoadPriority.GALLERY 2 (3 : ℚ)] =
      some (LoadTask.mk "c" LoadPriority.CURRENT 1 (5 : ℚ)) ∧
    pick_next [LoadTask.mk "g" LoadPriority.GALLERY 2 (3 : ℚ),
        LoadTask.mk "c" LoadPriority.CURRENT 1 (5 : ℚ)] =
      some (LoadTask.mk "c" LoadPriority.CURRENT 1 (5 : ℚ)) :=
  load_task_priority_order.2.2
    [LoadTask.mk "g" LoadPriority.GALLERY 2 (3 : ℚ),
      LoadTask.mk "c" LoadPriority.CURRENT 1 (5 : ℚ)]
    (LoadTask.mk "c" LoadPriority.CURRENT 1 (5 : ℚ))
    (LoadTask.mk "g" LoadPriority.GALLERY 2 (3 : ℚ))
    (LoadTask.mk "c" LoadPriority.CURRENT 1 (5 : ℚ))
    (by simp) (by simp) (Or.inl (by decide)) (by decide)

/-! ## Current-decode completion callback (imagura2.py
`preload_neighbors.on_current_loaded`)

GPU texture creation is modelled by recording what was uploaded: a
decoded image, or a solid-color image from `rl.GenImageColor`. The error
branch builds a 2x2 texture of color `RL_WHITE` carrying the requested
path. -/

/-- A decoded raw image (the loader result). -/
structure RawImage where
  width : ℤ
  height : ℤ
  src : String
deriving DecidableEq, Repr

/-- What a texture was uploaded from. -/
inductive TexSource where
  | ofImage (img : RawImage)
  | ofColor (w h : ℤ) (color : Nat)
deriving DecidableEq, Repr

/-- `RL_WHITE` (rl_compat.py): the fixed placeholder color, raylib
RAYWHITE `(245, 245, 245, 255)` encoded as RGBA. -/
def RL_WHITE : Nat := 0xF5F5F5FF

/-- `TextureInfo` (types.py). -/
structure TextureInfo where
  tex : TexSource
  w : ℤ
  h : ℤ
  path : String := ""
deriving DecidableEq, Repr

/-- `image_to_textureinfo` (imagura2.py): upload the image and keep its
dimensions and path. -/
def image_to_textureinfo (img : RawImage) (path : String) : TextureInfo :=
  { tex := TexSource.ofImage img, w := img.width, h := img.height, path := path }

/-- The slice of `AppState` read or written by `on_current_loaded`. -/
structure LoadState where
  cache_curr : Option TextureInfo
  loading_current : Bool
  view : ViewParams
  last_fit_view : ViewParams
  view_memory : List (String × ViewParams)
  is_zoomed : Bool
  zoom_state_cycle : ℤ
  waiting_for_switch : Bool
  pending_target_index : Option ℤ
  waiting_prev_snapshot : Option TextureInfo
  waiting_prev_view : ViewParams
  switch_anim_prev_tex : Option TextureInfo
  switch_anim_prev_view : ViewParams
  switch_anim_active : Bool
  switch_anim_t0 : ℚ
  switch_anim_direction : ℤ
  switch_anim_duration_ms : ℤ
  pending_switch_duration_ms : ℤ
  open_anim_active : Bool
  open_anim_t0 : ℚ
  bg_current_opacity : ℚ
  pending_neighbors_load : Bool
  screenW : ℤ
  screenH : ℤ
deriving DecidableEq, Repr

/-- `compute_fit_view(state, frac)` (imagura2.py): default view when no
current texture, else the pure fit view of the current texture. -/
def compute_fit_view_state (curr : Option TextureInfo) (screenW screenH : ℤ)
    (frac : ℚ) : ViewParams :=
  match curr with
  | none => {}
  | some ti => center_view_for (compute_fit_scale ti.w ti.h screenW screenH frac)
      ti.w ti.h screenW screenH

/-- The `waiting_for_switch` block at the end of the success branch:
start the slide animation when a snapshot exists, then clear the pending
switch bookkeeping. -/
def start_pending_switch (s : LoadState) (old_index : ℤ) (tNow : ℚ) : LoadState :=
  match s.waiting_for_switch, s.pending_target_index with
  | true, some tgt =>
      let direction : ℤ := if tgt > old_index then 1 else -1
      let s5 :=
        match s.waiting_prev_snapshot with
        | some snap =>
            { s with switch_anim_prev_tex := some snap,
                     switch_anim_prev_view := s.waiting_prev_view,
                     switch_anim_active := true,
                     switch_anim_t0 := tNow,
                     switch_anim_direction := direction,
                     switch_anim_duration_ms := s.pending_switch_duration_ms }
        | none => s
      { s5 with waiting_for_switch := false,
                waiting_prev_snapshot := none,
                pending_target_index := none,
                pending_switch_duration_ms := ANIM_SWITCH_KEYS_MS }
  | _, _ => s

/-- The `open_anim_active` block at the end of the success branch. -/
def start_open_anim (s : LoadState) (tNow : ℚ) : LoadState :=
  if s.open_anim_active ∧ s.open_anim_t0 = 0 then
    { s with open_anim_t0 := tNow, bg_current_opacity := 0, pending_neighbors_load := true }
  else s

/-- `on_current_loaded` (imagura2.py). On error: clear the loading flag
and substitute a 2x2 `RL_WHITE` placeholder texture recording the path.
On success: build the texture, compute the fit view, restore a persisted
view when one exists (sanitized) and reclassify the zoom mode, else use
the fit view; then run the pending-switch and open-animation blocks. A
`none` image without an error models a texture-creation failure caught by
the surrounding `try`, which only clears the loading flag. -/
def on_current_loaded (s : LoadState) (old_index : ℤ) (tNow : ℚ) (path : String)
    (img : Option RawImage) (error : Option String) : LoadState :=
  match error with
  | some _ =>
      { s with loading_current := false,
               cache_curr := some { tex := TexSource.ofColor 2 2 RL_WHITE, w := 2, h := 2,
                                    path := path } }
  | none =>
      match img with
      | none => { s with loading_current := false }
      | some im =>
          let curr := image_to_textureinfo im path
          let fit := compute_fit_view_state (some curr) s.screenW s.screenH FIT_DEFAULT_SCALE
          let s2 := { s with cache_curr := some curr, loading_current := false,
                             last_fit_view := fit }
          let s3 :=
            match s.view_memory.lookup path with
            | some restored =>
                let v := sanitize_view restored curr.w curr.h s.screenW s.screenH
                { s2 with view := v,
                          is_zoomed := decide (v.scale > fit.scale),
                          zoom_state_cycle :=
                            if |v.scale - 1| < 1/100 then 0
                            else if |v.scale - fit.scale| < 1/100 then 1
                            else 2 }
            | none => { s2 with view := fit, is_zoomed := false, zoom_state_cycle := 1 }
          start_open_anim (start_pending_switch s3 old_index tNow) tNow

/-- C7. Whenever the CURRENT-decode completion callback runs with a
non-null error, the current cache slot afterwards holds the fixed 2x2
`RL_WHITE` placeholder texture recording the requested path, and the
`loading_current` flag is cleared, for every prior state. -/
theorem current_error_placeholder (s : LoadState) (old_index : ℤ) (tNow : ℚ)
    (path : String) (img : Option RawImage) (e : String) :
    (on_current_loaded s old_index tNow path img (some e)).cache_curr =
      some { tex := TexSource.ofColor 2 2 RL_WHITE, w := 2, h := 2, path := path } ∧
    (on_current_loaded s old_index tNow path img (some e)).loading_current = false :=
  ⟨rfl, rfl⟩

end Imagura
